import Mathlib

/-!
Shallow embedding of `prime_multiset.py`: a multiset of prime numbers stored
as a single arbitrary-precision integer, where the multiplicity of a prime
equals its exponent in the factorization of `value`.

The data model keeps `value ≥ 1`; all values and elements handled by the
operations below are nonnegative, and Python's floor division and modulus
coincide with `Nat` division and modulus on nonnegative operands, so `value`
is embedded as a `Nat`.  Python's built-in `divmod` raises `ZeroDivisionError`
when the divisor is `0`; the fallible methods (`remove`, `discard`) are
therefore embedded with explicit `Except` results paired with the post-state
of the receiver, which is the pre-state whenever an exception is raised
before the assignment to `self.value`.
-/

namespace Py

/-- Exception values that the embedded methods can raise: `KeyError(element)`
from `remove`, and `ZeroDivisionError` from Python's `divmod` when the
divisor is zero. -/
inductive PyError where
  | keyError (element : Nat)
  | zeroDivisionError
  deriving DecidableEq, Repr

/-- Python's built-in `divmod(a, b)` on nonnegative integers: raises
`ZeroDivisionError` when `b = 0`, otherwise returns the pair
`(a // b, a % b)`. -/
def divmod (a b : Nat) : Except PyError (Nat × Nat) :=
  if b = 0 then Except.error PyError.zeroDivisionError
  else Except.ok (a / b, a % b)

/-- `PrimeMultiset`: wraps one arbitrary-precision unsigned integer `value`;
the multiplicity of prime `p` in the multiset is the exponent of `p` in the
factorization of `value`. -/
structure PrimeMultiset where
  value : Nat
  deriving DecidableEq, Repr

namespace PrimeMultiset

/-- `__init__(self, sequence=(), initial_value=1)`:
`self.value = functools.reduce(operator.mul, sequence, initial_value)`. -/
def __init__ (sequence : List Nat) (initial_value : Nat) : PrimeMultiset :=
  ⟨sequence.foldl (· * ·) initial_value⟩

/-- Static helper `__lcm(lhs, rhs)`: `lhs * rhs // math.gcd(lhs, rhs)`. -/
def __lcm (lhs rhs : Nat) : Nat :=
  lhs * rhs / Nat.gcd lhs rhs

/-- `__and__`: `PrimeMultiset(initial_value=math.gcd(self.value, other.value))`. -/
def __and__ (self other : PrimeMultiset) : PrimeMultiset :=
  ⟨Nat.gcd self.value other.value⟩

/-- `__iand__`: `self.value = math.gcd(self.value, other.value); return self`.
The returned multiset is the updated left operand. -/
def __iand__ (self other : PrimeMultiset) : PrimeMultiset :=
  ⟨Nat.gcd self.value other.value⟩

/-- `__or__`: `PrimeMultiset(initial_value=self.__lcm(self.value, other.value))`. -/
def __or__ (self other : PrimeMultiset) : PrimeMultiset :=
  ⟨__lcm self.value other.value⟩

/-- `__ior__`: `self.value = self.__lcm(self.value, other.value); return self`. -/
def __ior__ (self other : PrimeMultiset) : PrimeMultiset :=
  ⟨__lcm self.value other.value⟩

/-- `__add__`: `PrimeMultiset(initial_value=self.value * other.value)`. -/
def __add__ (self other : PrimeMultiset) : PrimeMultiset :=
  ⟨self.value * other.value⟩

/-- `__iadd__`: `self.value *= other.value; return self`. -/
def __iadd__ (self other : PrimeMultiset) : PrimeMultiset :=
  ⟨self.value * other.value⟩

/-- `__sub__`: `PrimeMultiset(initial_value=self.value // (self & other).value)`. -/
def __sub__ (self other : PrimeMultiset) : PrimeMultiset :=
  ⟨self.value / (__and__ self other).value⟩

/-- `__isub__`: `self.value //= (self & other).value; return self`. -/
def __isub__ (self other : PrimeMultiset) : PrimeMultiset :=
  ⟨self.value / (__and__ self other).value⟩

/-- `__eq__`: `self.value == other.value`. -/
def __eq__ (self other : PrimeMultiset) : Bool :=
  self.value == other.value

/-- `__ne__`: `self.value != other.value`. -/
def __ne__ (self other : PrimeMultiset) : Bool :=
  self.value != other.value

/-- `__le__`: `other.value % self.value == 0`. -/
def __le__ (self other : PrimeMultiset) : Bool :=
  other.value % self.value == 0

/-- `__lt__`: `self <= other and self != other`. -/
def __lt__ (self other : PrimeMultiset) : Bool :=
  __le__ self other && __ne__ self other

/-- `__ge__`: `self.value % other.value == 0`. -/
def __ge__ (self other : PrimeMultiset) : Bool :=
  self.value % other.value == 0

/-- `__gt__`: `self >= other and self != other`. -/
def __gt__ (self other : PrimeMultiset) : Bool :=
  __ge__ self other && __ne__ self other

/-- `add(self, element)`: `self.value *= element`. -/
def add (self : PrimeMultiset) (element : Nat) : PrimeMultiset :=
  ⟨self.value * element⟩

/-- `remove(self, element)`:
`quotient, remainder = divmod(self.value, element)` (which may raise
`ZeroDivisionError`); `if remainder != 0: raise KeyError(element)`;
`self.value = quotient`.  The result pairs the raised exception (if any)
with the post-state of `self`, which is the pre-state on every raising
path because the assignment comes last. -/
def remove (self : PrimeMultiset) (element : Nat) :
    Except PyError Unit × PrimeMultiset :=
  match divmod self.value element with
  | Except.error e => (Except.error e, self)
  | Except.ok (quotient, remainder) =>
    if remainder != 0 then (Except.error (PyError.keyError element), self)
    else (Except.ok (), ⟨quotient⟩)

/-- `discard(self, element)`:
`quotient, remainder = divmod(self.value, element)` (which may raise
`ZeroDivisionError`); `if remainder == 0: self.value = quotient`. -/
def discard (self : PrimeMultiset) (element : Nat) :
    Except PyError Unit × PrimeMultiset :=
  match divmod self.value element with
  | Except.error e => (Except.error e, self)
  | Except.ok (quotient, remainder) =>
    if remainder == 0 then (Except.ok (), ⟨quotient⟩)
    else (Except.ok (), self)

/-- `clear(self)`: `self.value = 1`. -/
def clear (_self : PrimeMultiset) : PrimeMultiset :=
  ⟨1⟩

/-- `is_empty(self)`: `self.value == 1`. -/
def is_empty (self : PrimeMultiset) : Bool :=
  self.value == 1

/-- `__contains__(self, element)`: `self.value % element == 0`. -/
def __contains__ (self : PrimeMultiset) (element : Nat) : Bool :=
  self.value % element == 0

/-- The constructor folds the sequence into the initial value by
multiplication, so the resulting value is the initial value times the
product of the sequence. -/
theorem value_init (sequence : List Nat) (initial_value : Nat) :
    (__init__ sequence initial_value).value = initial_value * sequence.prod := by
  unfold __init__
  induction sequence generalizing initial_value with
  | nil => simp
  | cons x xs ih =>
    have := ih (initial_value * x)
    simp only [List.foldl_cons, List.prod_cons] at this ⊢
    rw [this, Nat.mul_assoc]

/-- A product of positive naturals is positive. -/
theorem one_le_list_prod (l : List Nat) (h : ∀ x ∈ l, 1 ≤ x) : 1 ≤ l.prod :=
  List.prod_pos h

/-- Reduction of `remove` when the element is nonzero. -/
theorem remove_eq_of_ne_zero (self : PrimeMultiset) (element : Nat)
    (h : element ≠ 0) :
    remove self element =
      if self.value % element ≠ 0
      then (Except.error (PyError.keyError element), self)
      else (Except.ok (), ⟨self.value / element⟩) := by
  simp only [remove, divmod, if_neg h, ne_eq, bne_iff_ne]

/-- Reduction of `discard` when the element is nonzero. -/
theorem discard_eq_of_ne_zero (self : PrimeMultiset) (element : Nat)
    (h : element ≠ 0) :
    discard self element =
      if self.value % element = 0
      then (Except.ok (), ⟨self.value / element⟩)
      else (Except.ok (), self) := by
  simp only [discard, divmod, if_neg h, beq_iff_eq]

/-- Claim C1: for multisets `a`, `b` with values ≥ 1, the difference `a - b`
has value `a.value / gcd(a.value, b.value)`, this division is exact (zero
remainder), and per prime the resulting multiplicity is
`max(0, multiplicity in a − multiplicity in b)`, even when `b` has excess
multiplicities. -/
theorem sub_div_gcd_exact_saturating (a b : PrimeMultiset)
    (ha : 1 ≤ a.value) (hb : 1 ≤ b.value) :
    (__sub__ a b).value = a.value / Nat.gcd a.value b.value ∧
    a.value % Nat.gcd a.value b.value = 0 ∧
    ∀ p : ℕ, ((__sub__ a b).value.factorization p : ℤ) =
      max 0 ((a.value.factorization p : ℤ) - (b.value.factorization p : ℤ)) := by
  refine ⟨rfl, Nat.mod_eq_zero_of_dvd (Nat.gcd_dvd_left _ _), fun p => ?_⟩
  have h1 : (__sub__ a b).value = a.value / Nat.gcd a.value b.value := rfl
  rw [h1, Nat.factorization_div (Nat.gcd_dvd_left a.value b.value),
    Nat.factorization_gcd (by omega) (by omega), Finsupp.tsub_apply,
    Finsupp.inf_apply]
  omega

/-- Claim C1 witness: at `a = 12 = 2²·3`, `b = 18 = 2·3²` (where `b` has
excess multiplicity of 3), the difference value is `12 / gcd(12, 18)` and
the multiplicity of 3 saturates at 0. -/
theorem sub_div_gcd_exact_saturating_witness :
    (__sub__ ⟨12⟩ ⟨18⟩).value = 12 / Nat.gcd 12 18 ∧
    ((__sub__ ⟨12⟩ ⟨18⟩).value.factorization 3 : ℤ) =
      max 0 ((Nat.factorization 12 3 : ℤ) - (Nat.factorization 18 3 : ℤ)) :=
  ⟨(sub_div_gcd_exact_saturating ⟨12⟩ ⟨18⟩ (by decide) (by decide)).1,
   (sub_div_gcd_exact_saturating ⟨12⟩ ⟨18⟩ (by decide) (by decide)).2.2 3⟩

/-- Claim C2: for a multiset `m` with value ≥ 1 and element `e ≥ 1`,
`remove e` fails with `KeyError(e)` exactly when `e` does not divide
`m.value`; on failure the value is unchanged, and on success the value
becomes the quotient `m.value / e`. -/
theorem remove_fails_iff_not_dvd (m : PrimeMultiset) (e : Nat)
    (hm : 1 ≤ m.value) (he : 1 ≤ e) :
    ((remove m e).1 = Except.error (PyError.keyError e) ↔ ¬ e ∣ m.value) ∧
    (¬ e ∣ m.value → (remove m e).2 = m) ∧
    (e ∣ m.value → remove m e = (Except.ok (), ⟨m.value / e⟩)) := by
  rw [remove_eq_of_ne_zero m e (by omega)]
  by_cases hd : e ∣ m.value
  · have hr : m.value % e = 0 := Nat.mod_eq_zero_of_dvd hd
    simp [hr, hd]
  · have hr : m.value % e ≠ 0 := fun h => hd (Nat.dvd_of_mod_eq_zero h)
    simp [hr, hd]

/-- Claim C2 witness: removing 5 from the multiset of value 6 raises
`KeyError(5)` and leaves the value unchanged. -/
theorem remove_fails_iff_not_dvd_witness :
    ((remove ⟨6⟩ 5).1 = Except.error (PyError.keyError 5) ↔ ¬ (5 ∣ 6)) ∧
    (remove ⟨6⟩ 5).2 = (⟨6⟩ : PrimeMultiset) :=
  ⟨(remove_fails_iff_not_dvd ⟨6⟩ 5 (by decide) (by decide)).1,
   (remove_fails_iff_not_dvd ⟨6⟩ 5 (by decide) (by decide)).2.1 (by decide)⟩

/-- Claim C3 counterexample: `discard 0` on the multiset of value 6 raises
`ZeroDivisionError` (Python's `divmod` with divisor 0), so `discard` does
raise an error for some integer element. -/
theorem discard_zero_raises_zero_division :
    (discard ⟨6⟩ 0).1 = Except.error PyError.zeroDivisionError := rfl

/-- Claim C3 (amended): for every multiset `m` and every element `e ≥ 1`,
`discard e` never raises: if `e` divides `m.value` it sets the value to the
quotient, otherwise it silently leaves the value unchanged. -/
theorem discard_never_raises_of_pos (m : PrimeMultiset) (e : Nat)
    (he : 1 ≤ e) :
    (discard m e).1 = Except.ok () ∧
    (e ∣ m.value → (discard m e).2 = ⟨m.value / e⟩) ∧
    (¬ e ∣ m.value → (discard m e).2 = m) := by
  rw [discard_eq_of_ne_zero m e (by omega)]
  by_cases hd : e ∣ m.value
  · have hr : m.value % e = 0 := Nat.mod_eq_zero_of_dvd hd
    simp [hr, hd]
  · have hr : m.value % e ≠ 0 := fun h => hd (Nat.dvd_of_mod_eq_zero h)
    simp [hr, hd]

/-- Claim C3 witness: discarding 5 from the multiset of value 6 raises
nothing and leaves the value unchanged. -/
theorem discard_never_raises_of_pos_witness :
    (discard ⟨6⟩ 5).1 = Except.ok () ∧ (discard ⟨6⟩ 5).2 = (⟨6⟩ : PrimeMultiset) :=
  ⟨(discard_never_raises_of_pos ⟨6⟩ 5 (by decide)).1,
   (discard_never_raises_of_pos ⟨6⟩ 5 (by decide)).2.2 (by decide)⟩

/-- Claim C4: for multisets `a`, `b` with values ≥ 1: `a <= b` holds exactly
when `b.value % a.value == 0` (the asymmetric defining relation), `a >= b`
exactly when `a.value % b.value == 0`, `a < b` exactly when `a <= b` and
`a != b`, and `a > b` exactly when `a >= b` and `a != b`. -/
theorem inclusion_defs (a b : PrimeMultiset)
    (ha : 1 ≤ a.value) (hb : 1 ≤ b.value) :
    (__le__ a b = true ↔ b.value % a.value = 0) ∧
    (__ge__ a b = true ↔ a.value % b.value = 0) ∧
    (__lt__ a b = true ↔ (__le__ a b = true ∧ __ne__ a b = true)) ∧
    (__gt__ a b = true ↔ (__ge__ a b = true ∧ __ne__ a b = true)) := by
  refine ⟨?_, ?_, ?_, ?_⟩
  · simp [__le__]
  · simp [__ge__]
  · simp [__lt__]
  · simp [__gt__]

/-- Claim C4 witness: at `a` of value 2 and `b` of value 6, `a <= b` holds
since `6 % 2 == 0`, and `a < b` since additionally `a != b`. -/
theorem inclusion_defs_witness :
    (__le__ ⟨2⟩ ⟨6⟩ = true ↔ (6 : Nat) % 2 = 0) ∧
    (__lt__ ⟨2⟩ ⟨6⟩ = true ↔ (__le__ ⟨2⟩ ⟨6⟩ = true ∧ __ne__ ⟨2⟩ ⟨6⟩ = true)) :=
  ⟨(inclusion_defs ⟨2⟩ ⟨6⟩ (by decide) (by decide)).1,
   (inclusion_defs ⟨2⟩ ⟨6⟩ (by decide) (by decide)).2.2.1⟩

/-- Claim C5: for multisets `a`, `b` with values ≥ 1, the non-mutating
operators yield: intersection value `gcd(a.value, b.value)`, union value
`lcm(a.value, b.value) = a.value * b.value / gcd(a.value, b.value)`, and
sum value `a.value * b.value`. -/
theorem setalgebra_values (a b : PrimeMultiset)
    (ha : 1 ≤ a.value) (hb : 1 ≤ b.value) :
    (__and__ a b).value = Nat.gcd a.value b.value ∧
    (__or__ a b).value = Nat.lcm a.value b.value ∧
    (__or__ a b).value = a.value * b.value / Nat.gcd a.value b.value ∧
    (__add__ a b).value = a.value * b.value :=
  ⟨rfl, rfl, rfl, rfl⟩

/-- Claim C5 witness: at values 6 and 4, intersection has value
`gcd(6,4) = 2`, union has value `lcm(6,4) = 6*4/2 = 12`, and sum has value
`6*4 = 24`. -/
theorem setalgebra_values_witness :
    (__and__ ⟨6⟩ ⟨4⟩).value = Nat.gcd 6 4 ∧
    (__or__ ⟨6⟩ ⟨4⟩).value = Nat.lcm 6 4 ∧
    (__add__ ⟨6⟩ ⟨4⟩).value = 6 * 4 :=
  ⟨(setalgebra_values ⟨6⟩ ⟨4⟩ (by decide) (by decide)).1,
   (setalgebra_values ⟨6⟩ ⟨4⟩ (by decide) (by decide)).2.1,
   (setalgebra_values ⟨6⟩ ⟨4⟩ (by decide) (by decide)).2.2.2⟩

/-- Claim C6: construction from a sequence of positive integers and a
positive initial value yields `value = initial_value * product(sequence)`
(empty product 1); the no-argument construction has value 1 and is empty,
construction from a non-empty list of integers > 1 is non-empty, and
`is_empty` holds exactly when `value == 1`. -/
theorem init_value_and_is_empty (sequence : List Nat) (initial_value : Nat)
    (hi : 1 ≤ initial_value) (hs : ∀ x ∈ sequence, 1 ≤ x) :
    (__init__ sequence initial_value).value = initial_value * sequence.prod ∧
    (__init__ [] 1).value = 1 ∧
    is_empty (__init__ [] 1) = true ∧
    (∀ t : List Nat, t ≠ [] → (∀ x ∈ t, 2 ≤ x) →
      is_empty (__init__ t 1) = false) ∧
    (∀ m : PrimeMultiset, (is_empty m = true ↔ m.value = 1)) := by
  refine ⟨value_init _ _, rfl, rfl, ?_, fun m => by simp [is_empty]⟩
  intro t ht h2
  match t with
  | [] => exact absurd rfl ht
  | x :: xs =>
    have hx : 2 ≤ x := h2 x (List.mem_cons_self x xs)
    have hxs : 1 ≤ xs.prod :=
      one_le_list_prod xs (fun y hy => by
        have := h2 y (List.mem_cons_of_mem x hy); omega)
    have hv : (__init__ (x :: xs) 1).value = 1 * (x :: xs).prod :=
      value_init _ _
    have hle : x ≤ x * xs.prod := Nat.le_mul_of_pos_right x hxs
    simp only [is_empty, hv, one_mul, List.prod_cons, beq_eq_false_iff_ne,
      ne_eq]
    omega

/-- Claim C6 witness: `P([2])` has value `1 * 2` and is not empty. -/
theorem init_value_and_is_empty_witness :
    (__init__ [2] 1).value = 1 * List.prod [2] ∧
    is_empty (__init__ [2] 1) = false :=
  ⟨(init_value_and_is_empty [2] 1 (by decide) (by decide)).1,
   (init_value_and_is_empty [2] 1 (by decide) (by decide)).2.2.2.1 [2]
     (by decide) (by decide)⟩

/-- Claim C7: each in-place operator (`&=`, `|=`, `+=`, `-=`) leaves its left
operand holding exactly the value produced by the corresponding non-mutating
operator; in the embedding the in-place operator returns the updated left
operand itself, so the two results coincide as whole states. -/
theorem inplace_eq_nonmutating (a b : PrimeMultiset)
    (ha : 1 ≤ a.value) (hb : 1 ≤ b.value) :
    __iand__ a b = __and__ a b ∧ __ior__ a b = __or__ a b ∧
    __iadd__ a b = __add__ a b ∧ __isub__ a b = __sub__ a b :=
  ⟨rfl, rfl, rfl, rfl⟩

/-- Claim C7 witness: at values 6 and 4, `&=` leaves the same state as `&`. -/
theorem inplace_eq_nonmutating_witness :
    __iand__ ⟨6⟩ ⟨4⟩ = __and__ ⟨6⟩ ⟨4⟩ :=
  (inplace_eq_nonmutating ⟨6⟩ ⟨4⟩ (by decide) (by decide)).1

/-- Claim C8: for all lists `a`, `b` of positive integers,
`(P(a) + P(b)) - P(b) == P(a)`: summing with `b` and then subtracting `b`
restores the original multiset. -/
theorem add_sub_roundtrip (a b : List Nat)
    (ha : ∀ x ∈ a, 1 ≤ x) (hb : ∀ x ∈ b, 1 ≤ x) :
    __eq__ (__sub__ (__add__ (__init__ a 1) (__init__ b 1)) (__init__ b 1))
      (__init__ a 1) = true := by
  have hva : (__init__ a 1).value = a.prod := by rw [value_init, one_mul]
  have hvb : (__init__ b 1).value = b.prod := by rw [value_init, one_mul]
  have hpb : 1 ≤ b.prod := one_le_list_prod b hb
  have hgcd : Nat.gcd (a.prod * b.prod) b.prod = b.prod :=
    Nat.gcd_eq_right (dvd_mul_left b.prod a.prod)
  simp only [__eq__, __sub__, __add__, __and__, hva, hvb, hgcd, beq_iff_eq]
  exact Nat.mul_div_cancel a.prod hpb

/-- Claim C8 witness: `(P([2,3]) + P([5])) - P([5]) == P([2,3])`. -/
theorem add_sub_roundtrip_witness :
    __eq__
      (__sub__ (__add__ (__init__ [2, 3] 1) (__init__ [5] 1))
        (__init__ [5] 1))
      (__init__ [2, 3] 1) = true :=
  add_sub_roundtrip [2, 3] [5] (by decide) (by decide)

/-- Claim C9: for multisets `a`, `b` with values ≥ 1, inclusion is consistent
with union and intersection: `a <= (a | b)` and `(a & b) <= a`. -/
theorem inclusion_consistency (a b : PrimeMultiset)
    (ha : 1 ≤ a.value) (hb : 1 ≤ b.value) :
    __le__ a (__or__ a b) = true ∧ __le__ (__and__ a b) a = true := by
  constructor
  · have h : (__or__ a b).value = Nat.lcm a.value b.value := rfl
    simp only [__le__, h, beq_iff_eq]
    exact Nat.mod_eq_zero_of_dvd (Nat.dvd_lcm_left _ _)
  · simp only [__le__, __and__, beq_iff_eq]
    exact Nat.mod_eq_zero_of_dvd (Nat.gcd_dvd_left _ _)

/-- Claim C9 witness: at values 6 and 4, `a <= a | b` and `a & b <= a`. -/
theorem inclusion_consistency_witness :
    __le__ ⟨6⟩ (__or__ ⟨6⟩ ⟨4⟩) = true ∧
    __le__ (__and__ ⟨6⟩ ⟨4⟩) ⟨6⟩ = true :=
  inclusion_consistency ⟨6⟩ ⟨4⟩ (by decide) (by decide)

/-- Claim C10: starting from values ≥ 1 and an element ≥ 1, every operator
and method leaves every involved instance with value ≥ 1; in particular the
gcd used by subtraction divides the value exactly, and `remove`/`discard`
post-states stay ≥ 1 whether they commit the quotient or leave the value
untouched. -/
theorem value_invariant (a b : PrimeMultiset) (e : Nat)
    (ha : 1 ≤ a.value) (hb : 1 ≤ b.value) (he : 1 ≤ e) :
    1 ≤ (__and__ a b).value ∧ 1 ≤ (__or__ a b).value ∧
    1 ≤ (__add__ a b).value ∧ 1 ≤ (__sub__ a b).value ∧
    1 ≤ (__iand__ a b).value ∧ 1 ≤ (__ior__ a b).value ∧
    1 ≤ (__iadd__ a b).value ∧ 1 ≤ (__isub__ a b).value ∧
    1 ≤ (add a e).value ∧ 1 ≤ (remove a e).2.value ∧
    1 ≤ (discard a e).2.value ∧ 1 ≤ (clear a).value ∧
    Nat.gcd a.value b.value ∣ a.value := by
  have hg : 1 ≤ Nat.gcd a.value b.value :=
    Nat.gcd_pos_of_pos_left b.value (by omega)
  have hsub : 1 ≤ a.value / Nat.gcd a.value b.value :=
    (Nat.one_le_div_iff hg).mpr (Nat.le_of_dvd (by omega)
      (Nat.gcd_dvd_left _ _))
  have hlcm : 1 ≤ Nat.lcm a.value b.value :=
    Nat.pos_of_ne_zero (Nat.lcm_ne_zero (by omega) (by omega))
  have hrem : 1 ≤ (remove a e).2.value := by
    rw [remove_eq_of_ne_zero a e (by omega)]
    split
    · exact ha
    · rename_i h
      have hd : e ∣ a.value := Nat.dvd_of_mod_eq_zero (by omega)
      exact (Nat.one_le_div_iff (by omega)).mpr
        (Nat.le_of_dvd (by omega) hd)
  have hdis : 1 ≤ (discard a e).2.value := by
    rw [discard_eq_of_ne_zero a e (by omega)]
    split
    · rename_i h
      have hd : e ∣ a.value := Nat.dvd_of_mod_eq_zero h
      exact (Nat.one_le_div_iff (by omega)).mpr
        (Nat.le_of_dvd (by omega) hd)
    · exact ha
  exact ⟨hg, hlcm, Nat.mul_le_mul ha hb, hsub, hg, hlcm,
    Nat.mul_le_mul ha hb, hsub, Nat.mul_le_mul ha he, hrem, hdis,
    Nat.le_refl 1, Nat.gcd_dvd_left _ _⟩

/-- Claim C10 witness: at values 6, 4 and element 3, subtraction and the
`remove` post-state keep the value ≥ 1. -/
theorem value_invariant_witness :
    1 ≤ (__sub__ ⟨6⟩ ⟨4⟩).value ∧ 1 ≤ (remove ⟨6⟩ 3).2.value :=
  ⟨(value_invariant ⟨6⟩ ⟨4⟩ 3 (by decide) (by decide) (by decide)).2.2.2.1,
   (value_invariant ⟨6⟩ ⟨4⟩ 3 (by decide) (by decide)
     (by decide)).2.2.2.2.2.2.2.2.2.1⟩

end PrimeMultiset

end Py
